import Mathlib

/-!
Shallow embedding of the energy-consumption tracking core of
`pydaikin/daikin_base.py` (class `Appliance`), together with theorems
settling the specification claims about it.

Modelling conventions:
* Instants (`datetime.utcnow()`) and durations (`timedelta`) are integers,
  measured in minutes.  `POWER_CONSUMPTION_MAX_HISTORY = timedelta(hours=3)`
  becomes `180`.  The source reads the clock several times inside one call;
  all reads within one call are modelled as the same instant `now`, passed
  explicitly.
* Python numbers are modelled by `Int` (parsed counters) and `ℚ` (values
  obtained by true division, which Python performs in floating point; the
  claims under study are about which values flow where, not about rounding,
  so exact rationals are used).
* Python exceptions are modelled by `Except PyError`; `_energy_consumption`
  catches only `ValueError`, every other exception propagates.
* `self.values` (a `dict` of raw strings) is an association list `Values`;
  `self._energy_consumption_history` (a `defaultdict(list)`) is an
  association list `HistMap` whose key set grows on every lookup of an
  absent key, exactly like `defaultdict.__getitem__`.
-/

/-- Kinds of Python exceptions that the embedded code can raise. -/
inductive PyError where
  | attributeError
  | typeError
  | valueError
  | indexError
deriving DecidableEq

/-- One entry of `self._energy_consumption_history[mode]`: the tuple
`(datetime.utcnow(), today_energy_consumption(mode), yesterday_energy_consumption(mode))`. -/
structure EnergySnapshot where
  time : Int
  today : ℚ
  yesterday : ℚ
deriving DecidableEq

instance : Inhabited EnergySnapshot := ⟨⟨0, 0, 0⟩⟩

/-- The raw key/value mapping `self.values`. -/
abbrev Values := List (String × String)

/-- The per-mode history mapping `self._energy_consumption_history`. -/
abbrev HistMap := List (String × List EnergySnapshot)

/-- `POWER_CONSUMPTION_MAX_HISTORY = timedelta(hours=3)`, in minutes. -/
def POWER_CONSUMPTION_MAX_HISTORY : Int := 180

/-- `dict.get(key)` on `self.values` (returns `None` for an absent key). -/
def vget : Values → String → Option String
  | [], _ => none
  | (k, v) :: rest, key => if k = key then some v else vget rest key

/-- `str.split('/')` on the character list of a Python string.
`''.split('/') == ['']`, `'a/b'.split('/') == ['a','b']`. -/
def splitSlash : List Char → List (List Char)
  | [] => [[]]
  | c :: cs =>
      let r := splitSlash cs
      if c = '/' then [] :: r
      else
        match r with
        | t :: ts => (c :: t) :: ts
        | [] => [[c]]

/-- Value of a decimal digit character, `none` for a non-digit. -/
def digitVal (c : Char) : Option Nat :=
  if '0' ≤ c ∧ c ≤ '9' then some (c.toNat - '0'.toNat) else none

/-- Accumulating decimal parse of a digit string. -/
def parseNatAux : List Char → Nat → Option Nat
  | [], acc => some acc
  | c :: cs, acc =>
      match digitVal c with
      | some d => parseNatAux cs (acc * 10 + d)
      | none => none

/-- Python `int(s)` on a string: optional minus sign followed by at least one
decimal digit, otherwise a `ValueError` (modelled as `none`).  (The extra
leniencies of CPython `int` — surrounding whitespace, `+`, underscores —
are irrelevant to the device fields under study and are not modelled.) -/
def python_int : List Char → Option Int
  | [] => none
  | c :: cs =>
      if c = '-' then
        match cs with
        | [] => none
        | _ => (parseNatAux cs 0).map (fun n => -(n : Int))
      else (parseNatAux (c :: cs) 0).map (fun n => (n : Int))

/-- `Appliance._energy_consumption(dimension)`:
`[int(x) for x in self.values.get(dimension).split('/')]` with
`except ValueError: return`.  A missing key makes `.split` be called on
`None`, raising `AttributeError` (uncaught); a non-numeric element raises
`ValueError`, which is caught and turned into `None` (`Except.ok none`). -/
def energy_consumption (values : Values) (dimension : String) :
    Except PyError (Option (List Int)) :=
  match vget values dimension with
  | none => .error .attributeError
  | some s =>
      match (splitSlash s.data).mapM python_int with
      | none => .ok none
      | some l => .ok (some l)

/-- `Appliance.today_energy_consumption(mode)`.  For `total` it returns
`self._energy_consumption('datas')[-1] / 1000`; subscripting the `None`
produced by a caught `ValueError` raises `TypeError`, and `[-1]` on an empty
list raises `IndexError`.  For `cool`/`heat` it returns
`sum(self._energy_consumption(field)) / 10` (where `sum(None)` raises
`TypeError`).  Any other mode raises `ValueError`. -/
def today_energy_consumption (values : Values) (mode : String) :
    Except PyError ℚ :=
  if mode = "total" then
    match energy_consumption values "datas" with
    | .error e => .error e
    | .ok none => .error .typeError
    | .ok (some l) =>
        match l.getLast? with
        | none => .error .indexError
        | some x => .ok ((x : ℚ) / 1000)
  else if mode = "cool" then
    match energy_consumption values "curr_day_cool" with
    | .error e => .error e
    | .ok none => .error .typeError
    | .ok (some l) => .ok ((l.sum : ℚ) / 10)
  else if mode = "heat" then
    match energy_consumption values "curr_day_heat" with
    | .error e => .error e
    | .ok none => .error .typeError
    | .ok (some l) => .ok ((l.sum : ℚ) / 10)
  else .error .valueError

/-- `Appliance.yesterday_energy_consumption(mode)`.  For `total` it returns
`self._energy_consumption('datas')[-2] / 1000` (`[-2]` is the last element
of the list without its final element, raising `IndexError` when fewer than
two elements exist). -/
def yesterday_energy_consumption (values : Values) (mode : String) :
    Except PyError ℚ :=
  if mode = "total" then
    match energy_consumption values "datas" with
    | .error e => .error e
    | .ok none => .error .typeError
    | .ok (some l) =>
        match l.dropLast.getLast? with
        | none => .error .indexError
        | some x => .ok ((x : ℚ) / 1000)
  else if mode = "cool" then
    match energy_consumption values "prev_1day_cool" with
    | .error e => .error e
    | .ok none => .error .typeError
    | .ok (some l) => .ok ((l.sum : ℚ) / 10)
  else if mode = "heat" then
    match energy_consumption values "prev_1day_heat" with
    | .error e => .error e
    | .ok none => .error .typeError
    | .ok (some l) => .ok ((l.sum : ℚ) / 10)
  else .error .valueError

/-- `Appliance.support_energy_consumption`:
`sum(map(int, ((values.get('previous_year') or '0') + '/' +
(values.get('this_year') or '0')).split('/'))) > 0`.  Python `x or '0'`
yields `'0'` when `x` is `None` or the empty string. -/
def or_default_zero (o : Option String) : String :=
  match o with
  | none => "0"
  | some s => if s.data = [] then "0" else s

/-- Decides energy-consumption support from the yearly counters. -/
def support_energy_consumption (values : Values) : Except PyError Bool :=
  let s :=
    or_default_zero (vget values "previous_year") ++ "/" ++
      or_default_zero (vget values "this_year")
  match (splitSlash s.data).mapM python_int with
  | none => .error .valueError
  | some l => .ok (decide (0 < l.sum))

/-- `dict.__getitem__`-style lookup on the history map (no default). -/
def dict_get : HistMap → String → Option (List EnergySnapshot)
  | [], _ => none
  | (k, v) :: rest, key => if k = key then some v else dict_get rest key

/-- `defaultdict(list).__getitem__(key)`: returns the stored list, or
inserts (at the end, as Python dicts preserve insertion order) and returns
a fresh empty list when the key is absent.  Returns the list together with
the possibly-enlarged map. -/
def defaultdict_get (m : HistMap) (key : String) :
    List EnergySnapshot × HistMap :=
  match dict_get m key with
  | some v => (v, m)
  | none => ([], m ++ [(key, [])])

/-- Store a new list under an existing key of the history map. -/
def dict_set : HistMap → String → List EnergySnapshot → HistMap
  | [], _, _ => []
  | (k, v) :: rest, key, l =>
      if k = key then (key, l) :: rest else (k, v) :: dict_set rest key l

/-- The slice bound computed at the end of
`_register_energy_consumption_history`:
`min((i for i, (dt, _, _) in enumerate(history) if dt < utcnow() - MAX), default=len(history)) + 1`.
The minimum of the indices whose entry is older than the cutoff — with the
list length as default — is the first such index, or the length when none
qualifies, which is exactly `List.findIdx`. -/
def prune_index (now : Int) (h : List EnergySnapshot) : Nat :=
  h.findIdx (fun s => decide (s.time < now - POWER_CONSUMPTION_MAX_HISTORY)) + 1

/-- `history = history[:idx]` with `idx = prune_index`. -/
def prune_history (now : Int) (h : List EnergySnapshot) : List EnergySnapshot :=
  h.take (prune_index now h)

/-- The per-mode body of `_register_energy_consumption_history`, given the
already-extracted counters: dedup against the newest entry (both counters
unchanged means `continue`, skipping the insert *and* the prune), otherwise
`insert(0, new_state)` followed by the prune. -/
def register_for_mode (now : Int) (today yesterday : ℚ)
    (h : List EnergySnapshot) : List EnergySnapshot :=
  match h with
  | old :: _ =>
      if today = old.today ∧ yesterday = old.yesterday then h
      else prune_history now (⟨now, today, yesterday⟩ :: h)
  | [] => prune_history now (⟨now, today, yesterday⟩ :: h)

/-- The `for mode in (ATTR_TOTAL, ATTR_COOL, ATTR_HEAT)` loop of
`_register_energy_consumption_history`.  For each mode the `new_state`
tuple is built first (any exception from the extractors propagates and
aborts the whole call); then `self._energy_consumption_history[mode]` is
read through the defaultdict and the per-mode dedup/insert/prune logic
runs. -/
def register_modes (now : Int) (values : Values) :
    List String → HistMap → Except PyError HistMap
  | [], m => .ok m
  | mode :: rest, m =>
      match today_energy_consumption values mode,
            yesterday_energy_consumption values mode with
      | .ok t, .ok y =>
          let p := defaultdict_get m mode
          register_modes now values rest
            (dict_set p.2 mode (register_for_mode now t y p.1))
      | .error e, _ => .error e
      | .ok _, .error e => .error e

/-- `Appliance._register_energy_consumption_history` (leading underscore
dropped): the support guard followed by the three-mode loop. -/
def register_energy_consumption_history (now : Int) (values : Values)
    (m : HistMap) : Except PyError HistMap :=
  match support_energy_consumption values with
  | .error e => .error e
  | .ok false => .ok m
  | .ok true => register_modes now values ["total", "cool", "heat"] m

/-- The `for (dt2, st2, sy2), (dt1, st1, sy1) in zip(history, history[1:])`
loop of `delta_energy_consumption`, with the running `energy` accumulator.
`break` returns the accumulator; the anomaly branch `return 0` discards it. -/
def delta_energy_loop (now dt : Int) (earlyBreak : Bool) :
    ℚ → List EnergySnapshot → ℚ
  | energy, s2 :: s1 :: rest =>
      if s2.time ≤ now - dt then energy
      else if s1.today < s2.today then
        let e := energy + (s2.today - s1.today)
        if earlyBreak then e else delta_energy_loop now dt earlyBreak e (s1 :: rest)
      else if s1.today ≤ s2.yesterday then
        let e := energy + (s2.yesterday - s1.today) + s2.today
        if earlyBreak then e else delta_energy_loop now dt earlyBreak e (s1 :: rest)
      else 0
  | energy, _ => energy

/-- `Appliance.delta_energy_consumption(dt, mode, early_break)`: the
defaultdict read `history = self._energy_consumption_history[mode]`
(which may insert an empty list for an unseen mode) followed by the pair
loop.  Returns the energy together with the possibly-enlarged map. -/
def delta_energy_consumption (now dt : Int) (earlyBreak : Bool)
    (m : HistMap) (mode : String) : ℚ × HistMap :=
  let p := defaultdict_get m mode
  (delta_energy_loop now dt earlyBreak 0 p.1, p.2)

/-- `Appliance.current_total_power_consumption`: `None` when
`len(self._energy_consumption_history)` — the number of *keys* of the map —
is zero, otherwise `delta_energy_consumption(30min, 'total') *
(timedelta(hours=1) / timedelta(minutes=30))`, i.e. the delta times 2. -/
def current_total_power_consumption (now : Int) (m : HistMap) :
    Option ℚ × HistMap :=
  if m.length = 0 then (none, m)
  else
    let r := delta_energy_consumption now 30 false m "total"
    (some (r.1 * 2), r.2)

/-- Consecutive newest-first pairs `zip(history, history[1:])`. -/
def consecutive_pairs (h : List EnergySnapshot) :
    List (EnergySnapshot × EnergySnapshot) :=
  h.zip h.tail

/-- Modelled from the spec (for comparison with the loop): the prefix of
consecutive pairs whose newer element still lies inside the queried window,
i.e. the pairs the loop visits before the `break`. -/
def spec_in_window_pairs (now dt : Int) (h : List EnergySnapshot) :
    List (EnergySnapshot × EnergySnapshot) :=
  (consecutive_pairs h).takeWhile (fun p => decide (now - dt < p.1.time))

/-- Modelled from the spec: the contribution of one (newer, older) pair,
`newer.today − older.today` under normal growth, otherwise (day rollover)
`(newer.yesterday − older.today) + newer.today`. -/
def spec_pair_contribution (p : EnergySnapshot × EnergySnapshot) : ℚ :=
  if p.2.today < p.1.today then p.1.today - p.2.today
  else (p.1.yesterday - p.2.today) + p.1.today

lemma consecutive_pairs_nil : consecutive_pairs [] = [] := rfl

lemma consecutive_pairs_single (s : EnergySnapshot) : consecutive_pairs [s] = [] := rfl

lemma consecutive_pairs_cons (s2 s1 : EnergySnapshot) (rest : List EnergySnapshot) :
    consecutive_pairs (s2 :: s1 :: rest) = (s2, s1) :: consecutive_pairs (s1 :: rest) := rfl

lemma spec_in_window_pairs_cons (now dt : Int) (s2 s1 : EnergySnapshot)
    (rest : List EnergySnapshot) :
    spec_in_window_pairs now dt (s2 :: s1 :: rest)
      = if now - dt < s2.time then (s2, s1) :: spec_in_window_pairs now dt (s1 :: rest)
        else [] := by
  simp only [spec_in_window_pairs, consecutive_pairs_cons, List.takeWhile_cons,
    decide_eq_true_eq]

lemma spec_in_window_pairs_short (now dt : Int) (h : List EnergySnapshot)
    (hlen : h.length ≤ 1) : spec_in_window_pairs now dt h = [] := by
  match h with
  | [] => rfl
  | [s] => rfl

/-- When every pair the loop visits is normal growth or rollover, the loop
returns its accumulator plus the sum of the per-pair contributions. -/
lemma delta_loop_eq_sum (now dt : Int) :
    ∀ (h : List EnergySnapshot) (acc : ℚ),
      (∀ p ∈ spec_in_window_pairs now dt h,
        p.2.today < p.1.today ∨ p.2.today ≤ p.1.yesterday) →
      delta_energy_loop now dt false acc h
        = acc + ((spec_in_window_pairs now dt h).map spec_pair_contribution).sum := by
  intro h
  induction h with
  | nil => intro acc _; simp [delta_energy_loop, spec_in_window_pairs, consecutive_pairs]
  | cons s2 t ih =>
    cases t with
    | nil => intro acc _; simp [delta_energy_loop, spec_in_window_pairs, consecutive_pairs]
    | cons s1 rest =>
      intro acc hok
      by_cases hbreak : s2.time ≤ now - dt
      · have hwin : spec_in_window_pairs now dt (s2 :: s1 :: rest) = [] := by
          rw [spec_in_window_pairs_cons, if_neg (by omega)]
        rw [hwin]
        simp only [delta_energy_loop, if_pos hbreak, List.map_nil, List.sum_nil, add_zero]
      · have hwin : spec_in_window_pairs now dt (s2 :: s1 :: rest)
            = (s2, s1) :: spec_in_window_pairs now dt (s1 :: rest) := by
          rw [spec_in_window_pairs_cons, if_pos (by omega)]
        have htail : ∀ p ∈ spec_in_window_pairs now dt (s1 :: rest),
            p.2.today < p.1.today ∨ p.2.today ≤ p.1.yesterday := by
          intro p hp
          exact hok p (by rw [hwin]; exact List.mem_cons_of_mem _ hp)
        have hhead := hok (s2, s1) (by rw [hwin]; exact List.mem_cons_self _ _)
        by_cases hgrow : s1.today < s2.today
        · rw [show delta_energy_loop now dt false acc (s2 :: s1 :: rest)
              = delta_energy_loop now dt false (acc + (s2.today - s1.today)) (s1 :: rest) by
            simp only [delta_energy_loop, if_neg hbreak, if_pos hgrow]; rfl]
          rw [ih _ htail, hwin]
          simp only [List.map_cons, List.sum_cons, spec_pair_contribution, if_pos hgrow]
          ring
        · have hroll : s1.today ≤ s2.yesterday := by
            rcases hhead with h1 | h1
            · exact absurd h1 hgrow
            · exact h1
          rw [show delta_energy_loop now dt false acc (s2 :: s1 :: rest)
              = delta_energy_loop now dt false
                  (acc + (s2.yesterday - s1.today) + s2.today) (s1 :: rest) by
            simp only [delta_energy_loop, if_neg hbreak, if_neg hgrow, if_pos hroll]; rfl]
          rw [ih _ htail, hwin]
          simp only [List.map_cons, List.sum_cons, spec_pair_contribution, if_neg hgrow]
          ring

/-- When some pair the loop visits is anomalous, the loop returns 0,
whatever had already been accumulated. -/
lemma delta_loop_eq_zero_of_anomaly (now dt : Int) :
    ∀ (h : List EnergySnapshot) (acc : ℚ),
      (∃ p ∈ spec_in_window_pairs now dt h,
        ¬ p.2.today < p.1.today ∧ ¬ p.2.today ≤ p.1.yesterday) →
      delta_energy_loop now dt false acc h = 0 := by
  intro h
  induction h with
  | nil => intro acc hex; simp [spec_in_window_pairs, consecutive_pairs] at hex
  | cons s2 t ih =>
    cases t with
    | nil => intro acc hex; simp [spec_in_window_pairs, consecutive_pairs] at hex
    | cons s1 rest =>
      intro acc hex
      by_cases hbreak : s2.time ≤ now - dt
      · rw [spec_in_window_pairs_cons, if_neg (by omega)] at hex
        simp at hex
      · rw [spec_in_window_pairs_cons, if_pos (by omega)] at hex
        rcases hex with ⟨p, hp, hanom⟩
        rcases List.mem_cons.mp hp with hp | hp
        · subst hp
          simp only [delta_energy_loop, if_neg hbreak, if_neg hanom.1, if_neg hanom.2]
        · by_cases hgrow : s1.today < s2.today
          · rw [show delta_energy_loop now dt false acc (s2 :: s1 :: rest)
                = delta_energy_loop now dt false (acc + (s2.today - s1.today)) (s1 :: rest) by
              simp only [delta_energy_loop, if_neg hbreak, if_pos hgrow]; rfl]
            exact ih _ ⟨p, hp, hanom⟩
          · by_cases hroll : s1.today ≤ s2.yesterday
            · rw [show delta_energy_loop now dt false acc (s2 :: s1 :: rest)
                  = delta_energy_loop now dt false
                      (acc + (s2.yesterday - s1.today) + s2.today) (s1 :: rest) by
                simp only [delta_energy_loop, if_neg hbreak, if_neg hgrow, if_pos hroll]; rfl]
              exact ih _ ⟨p, hp, hanom⟩
            · simp only [delta_energy_loop, if_neg hbreak, if_neg hgrow, if_neg hroll]

lemma delta_on_singleton_map (now dt : Int) (eb : Bool) (mode : String)
    (h : List EnergySnapshot) :
    delta_energy_consumption now dt eb [(mode, h)] mode
      = (delta_energy_loop now dt eb 0 h, [(mode, h)]) := by
  simp [delta_energy_consumption, defaultdict_get, dict_get]

/-- C1: with `early_break = False`, whenever every consecutive pair inside
the queried window satisfies normal growth (`newer.today > older.today`) or
day rollover (`newer.yesterday ≥ older.today`), `delta_energy_consumption`
returns the sum over the in-window pairs of the contribution decided by the
two ordered cases (`newer.today − older.today`, respectively
`(newer.yesterday − older.today) + newer.today`); in particular, for the
history `[(t, today=50, yesterday=40), (t−10min, today=45, yesterday=40)]`,
`delta(total, 30min) = 5`. -/
theorem C1_delta_pair_cases :
    (∀ (now dt : Int) (mode : String) (h : List EnergySnapshot),
      (∀ p ∈ spec_in_window_pairs now dt h,
        p.2.today < p.1.today ∨ p.2.today ≤ p.1.yesterday) →
      (delta_energy_consumption now dt false [(mode, h)] mode).1
        = ((spec_in_window_pairs now dt h).map spec_pair_contribution).sum) ∧
    (delta_energy_consumption 0 30 false
      [("total", [⟨0, 50, 40⟩, ⟨-10, 45, 40⟩])] "total").1 = 5 := by
  constructor
  · intro now dt mode h hok
    rw [delta_on_singleton_map]
    simpa using delta_loop_eq_sum now dt h 0 hok
  · norm_num [delta_energy_consumption, defaultdict_get, dict_get, delta_energy_loop]

/-- Witness for C1 at a concrete rollover-plus-growth history. -/
theorem C1_delta_pair_cases_witness :
    (∀ p ∈ spec_in_window_pairs 0 30
        [⟨0, 3, 48⟩, ⟨-10, 45, 40⟩, ⟨-20, 41, 40⟩],
      p.2.today < p.1.today ∨ p.2.today ≤ p.1.yesterday) ∧
    (delta_energy_consumption 0 30 false
        [("total", [⟨0, 3, 48⟩, ⟨-10, 45, 40⟩, ⟨-20, 41, 40⟩])] "total").1
      = ((spec_in_window_pairs 0 30
          [⟨0, 3, 48⟩, ⟨-10, 45, 40⟩, ⟨-20, 41, 40⟩]).map
          spec_pair_contribution).sum := by
  have hok : ∀ p ∈ spec_in_window_pairs 0 30
      [⟨0, 3, 48⟩, ⟨-10, 45, 40⟩, ⟨-20, 41, 40⟩],
      p.2.today < p.1.today ∨ p.2.today ≤ p.1.yesterday := by
    norm_num [spec_in_window_pairs, consecutive_pairs, List.takeWhile_cons]
  exact ⟨hok, C1_delta_pair_cases.1 0 30 "total" _ hok⟩

lemma mem_consecutive_pairs_fst :
    ∀ (h : List EnergySnapshot) (p : EnergySnapshot × EnergySnapshot),
      p ∈ consecutive_pairs h → p.1 ∈ h := by
  intro h
  induction h with
  | nil => intro p hp; simp [consecutive_pairs] at hp
  | cons s2 t ih =>
    cases t with
    | nil => intro p hp; simp [consecutive_pairs] at hp
    | cons s1 rest =>
      intro p hp
      rw [consecutive_pairs_cons] at hp
      rcases List.mem_cons.mp hp with hp | hp
      · rw [hp]; exact List.mem_cons_self _ _
      · exact List.mem_cons_of_mem _ (ih p hp)

/-- In a newest-first history, every consecutive pair whose newer snapshot
lies inside the window is actually visited by the loop before the break. -/
lemma in_window_pair_visited (now dt : Int) :
    ∀ (h : List EnergySnapshot),
      h.Pairwise (fun a b => b.time ≤ a.time) →
      ∀ p ∈ consecutive_pairs h, now - dt < p.1.time →
        p ∈ spec_in_window_pairs now dt h := by
  intro h
  induction h with
  | nil => intro _ p hp; simp [consecutive_pairs] at hp
  | cons s2 t ih =>
    cases t with
    | nil => intro _ p hp; simp [consecutive_pairs] at hp
    | cons s1 rest =>
      intro hsort p hp hwin
      rcases List.pairwise_cons.mp hsort with ⟨hhead, htail⟩
      rcases List.mem_cons.mp (by rwa [consecutive_pairs_cons] at hp) with hp1 | hp1
      · have hs2 : now - dt < s2.time := by rw [hp1] at hwin; exact hwin
        rw [spec_in_window_pairs_cons, if_pos hs2, hp1]
        exact List.mem_cons_self _ _
      · have hfst : p.1 ∈ s1 :: rest := mem_consecutive_pairs_fst _ p hp1
        have hs2 : now - dt < s2.time := lt_of_lt_of_le hwin (hhead p.1 hfst)
        rw [spec_in_window_pairs_cons, if_pos hs2]
        exact List.mem_cons_of_mem _ (ih htail p hp1 hwin)

/-- C2: with `early_break = False`, on a newest-first history containing,
inside the queried window, an anomalous consecutive pair (neither growth
nor rollover: `newer.today ≤ older.today` and `newer.yesterday <
older.today`), the call returns exactly 0, discarding contributions already
accumulated from earlier pairs; concretely `older.today=50, newer.today=30,
newer.yesterday=10` yields 0.  (The embedded loop is a total function: no
exception is raised.) -/
theorem C2_anomaly_returns_zero :
    (∀ (now dt : Int) (mode : String) (h : List EnergySnapshot),
      h.Pairwise (fun a b => b.time ≤ a.time) →
      (∃ p ∈ consecutive_pairs h, now - dt < p.1.time ∧
        ¬ p.2.today < p.1.today ∧ ¬ p.2.today ≤ p.1.yesterday) →
      (delta_energy_consumption now dt false [(mode, h)] mode).1 = 0) ∧
    (delta_energy_consumption 0 30 false
      [("total", [⟨0, 30, 10⟩, ⟨-10, 50, 40⟩])] "total").1 = 0 := by
  constructor
  · rintro now dt mode h hsort ⟨p, hp, hwin, hanom⟩
    rw [delta_on_singleton_map]
    exact delta_loop_eq_zero_of_anomaly now dt h 0
      ⟨p, in_window_pair_visited now dt h hsort p hp hwin, hanom⟩
  · norm_num [delta_energy_consumption, defaultdict_get, dict_get, delta_energy_loop]

/-- Witness for C2: two normal pairs would contribute 5 + 25, but a later
in-window anomalous pair makes the whole call return 0. -/
theorem C2_anomaly_returns_zero_witness :
    ([⟨0, 60, 40⟩, ⟨-5, 55, 40⟩, ⟨-10, 30, 10⟩, ⟨-12, 50, 40⟩] :
        List EnergySnapshot).Pairwise (fun a b => b.time ≤ a.time) ∧
    (∃ p ∈ consecutive_pairs
        [⟨0, 60, 40⟩, ⟨-5, 55, 40⟩, ⟨-10, 30, 10⟩, ⟨-12, 50, 40⟩],
      0 - 30 < p.1.time ∧
      ¬ p.2.today < p.1.today ∧ ¬ p.2.today ≤ p.1.yesterday) ∧
    (delta_energy_consumption 0 30 false
      [("total", [⟨0, 60, 40⟩, ⟨-5, 55, 40⟩, ⟨-10, 30, 10⟩, ⟨-12, 50, 40⟩])]
      "total").1 = 0 := by
  have hex : ∃ p ∈ consecutive_pairs
      [⟨0, 60, 40⟩, ⟨-5, 55, 40⟩, ⟨-10, 30, 10⟩, ⟨-12, 50, 40⟩],
      0 - 30 < p.1.time ∧
      ¬ p.2.today < p.1.today ∧ ¬ p.2.today ≤ p.1.yesterday := by
    refine ⟨(⟨-10, 30, 10⟩, ⟨-12, 50, 40⟩), ?_, by norm_num, by norm_num, by norm_num⟩
    norm_num [consecutive_pairs]
  exact ⟨by decide, hex, C2_anomaly_returns_zero.1 0 30 "total" _ (by decide) hex⟩

/-- `take (findIdx p l + 1) l` keeps the longest prefix on which `p` fails,
plus the first element satisfying `p` when there is one. -/
lemma take_findIdx_succ {α : Type} (p : α → Bool) :
    ∀ l : List α,
      l.take (l.findIdx p + 1)
        = l.takeWhile (fun a => !(p a)) ++ (l.dropWhile (fun a => !(p a))).take 1 := by
  intro l
  induction l with
  | nil => simp
  | cons a t ih =>
    cases hpa : p a with
    | true => simp [List.findIdx_cons, hpa, List.takeWhile_cons, List.dropWhile_cons]
    | false =>
      simp only [List.findIdx_cons, hpa, List.takeWhile_cons, List.dropWhile_cons,
        Bool.not_false, Bool.false_eq_true, if_true, cond_false]
      rw [List.take_succ_cons, ih]
      simp

/-- Normal form of the pruning step on any history list. -/
lemma prune_history_eq (now : Int) (l : List EnergySnapshot) :
    prune_history now l
      = l.takeWhile
          (fun s => !(decide (s.time < now - POWER_CONSUMPTION_MAX_HISTORY)))
        ++ (l.dropWhile
          (fun s => !(decide (s.time < now - POWER_CONSUMPTION_MAX_HISTORY)))).take 1 :=
  take_findIdx_succ _ l

/-- The head of a non-empty `dropWhile` result falsifies the predicate. -/
lemma dropWhile_head_false {α : Type} (p : α → Bool) :
    ∀ (l : List α) (b : α) (B : List α), l.dropWhile p = b :: B → p b = false := by
  intro l
  induction l with
  | nil => intro b B hb; simp at hb
  | cons a t ih =>
    intro b B hb
    cases hpa : p a with
    | true => rw [List.dropWhile_cons_of_pos hpa] at hb; exact ih b B hb
    | false =>
      rw [List.dropWhile_cons_of_neg (by simp [hpa])] at hb
      cases hb; exact hpa

/-- In a newest-first (non-increasing timestamps) history, every entry from
the first stale one on is stale. -/
lemma mem_dropWhile_stale (cutoff : Int) :
    ∀ (l : List EnergySnapshot),
      l.Pairwise (fun a b => b.time ≤ a.time) →
      ∀ s ∈ l.dropWhile (fun s => !(decide (s.time < cutoff))),
        s.time < cutoff := by
  intro l
  induction l with
  | nil => intro _ s hs; simp at hs
  | cons a t ih =>
    intro hsort s hs
    rcases List.pairwise_cons.mp hsort with ⟨hhead, htail⟩
    cases hpa : decide (a.time < cutoff) with
    | false =>
      rw [List.dropWhile_cons_of_pos (by simp [hpa])] at hs
      exact ih htail s hs
    | true =>
      rw [List.dropWhile_cons_of_neg (by simp [hpa])] at hs
      have ha : a.time < cutoff := of_decide_eq_true hpa
      rcases List.mem_cons.mp hs with hs | hs
      · exact hs ▸ ha
      · exact lt_of_le_of_lt (hhead s hs) ha

lemma prune_keeps_fresh (now : Int) (l : List EnergySnapshot)
    (hsort : l.Pairwise (fun a b => b.time ≤ a.time)) :
    ∀ s ∈ l, now - POWER_CONSUMPTION_MAX_HISTORY ≤ s.time →
      s ∈ prune_history now l := by
  intro s hs hge
  rw [prune_history_eq]
  rw [← List.takeWhile_append_dropWhile
    (p := fun s => !(decide (s.time < now - POWER_CONSUMPTION_MAX_HISTORY))) (l := l)] at hs
  rcases List.mem_append.mp hs with hA | hB
  · exact List.mem_append_left _ hA
  · exact absurd (mem_dropWhile_stale _ l hsort s hB) (not_lt.mpr hge)

lemma prune_at_most_one_stale (now : Int) (l : List EnergySnapshot) :
    ((prune_history now l).filter
      (fun s => decide (s.time < now - POWER_CONSUMPTION_MAX_HISTORY))).length ≤ 1 := by
  rw [prune_history_eq, List.filter_append]
  have hA : (l.takeWhile
      (fun s => !(decide (s.time < now - POWER_CONSUMPTION_MAX_HISTORY)))).filter
      (fun s => decide (s.time < now - POWER_CONSUMPTION_MAX_HISTORY)) = [] := by
    refine List.filter_eq_nil_iff.mpr (fun x hx => ?_)
    have hq := List.mem_takeWhile_imp hx
    simpa using hq
  rw [hA, List.nil_append]
  exact le_trans (List.length_filter_le _ _) (by simp)

lemma prune_anchor (now : Int) (l : List EnergySnapshot)
    (hsort : l.Pairwise (fun a b => b.time ≤ a.time)) :
    (∃ s ∈ l, s.time < now - POWER_CONSUMPTION_MAX_HISTORY) →
      ∃ s ∈ prune_history now l,
        s.time < now - POWER_CONSUMPTION_MAX_HISTORY ∧
        ∀ s2 ∈ l, s2.time < now - POWER_CONSUMPTION_MAX_HISTORY →
          s2.time ≤ s.time := by
  rintro ⟨s, hsl, hstale⟩
  cases hB : l.dropWhile
      (fun s => !(decide (s.time < now - POWER_CONSUMPTION_MAX_HISTORY))) with
  | nil =>
    exfalso
    have hall := List.dropWhile_eq_nil_iff.mp hB s hsl
    simp at hall
    omega
  | cons b B2 =>
    have hbstale : b.time < now - POWER_CONSUMPTION_MAX_HISTORY := by
      have := dropWhile_head_false _ l b B2 hB
      simpa using this
    refine ⟨b, ?_, hbstale, ?_⟩
    · rw [prune_history_eq, hB]
      exact List.mem_append_right _ (by simp)
    · intro s2 hs2 hs2stale
      rw [← List.takeWhile_append_dropWhile
        (p := fun s => !(decide (s.time < now - POWER_CONSUMPTION_MAX_HISTORY)))
        (l := l)] at hs2
      rcases List.mem_append.mp hs2 with hA | hBm
      · have hq := List.mem_takeWhile_imp hA
        simp at hq
        omega
      · rw [hB] at hBm
        have hpair : (b :: B2).Pairwise (fun a b => b.time ≤ a.time) := by
          have := hsort.sublist (List.dropWhile_sublist
            (p := fun s => !(decide (s.time < now - POWER_CONSUMPTION_MAX_HISTORY))))
          rwa [hB] at this
        rcases List.mem_cons.mp hBm with hbm | hbm
        · exact hbm ▸ le_refl _
        · exact (List.pairwise_cons.mp hpair).1 s2 hbm

lemma prune_ne_nil (now : Int) (l : List EnergySnapshot) (hl : l ≠ []) :
    prune_history now l ≠ [] := by
  intro hcontra
  rw [prune_history_eq] at hcontra
  rcases List.append_eq_nil.mp hcontra with ⟨hA, hB1⟩
  have hBl : l.dropWhile
      (fun s => !(decide (s.time < now - POWER_CONSUMPTION_MAX_HISTORY))) = l := by
    conv_rhs => rw [← List.takeWhile_append_dropWhile
      (p := fun s => !(decide (s.time < now - POWER_CONSUMPTION_MAX_HISTORY))) (l := l)]
    rw [hA, List.nil_append]
  rw [hBl] at hB1
  cases l with
  | nil => exact hl rfl
  | cons a t => simp at hB1

lemma prune_all_fresh (now : Int) (l : List EnergySnapshot)
    (hall : ∀ s ∈ l, now - POWER_CONSUMPTION_MAX_HISTORY ≤ s.time) :
    prune_history now l = l := by
  rw [prune_history_eq]
  have hB : l.dropWhile
      (fun s => !(decide (s.time < now - POWER_CONSUMPTION_MAX_HISTORY))) = [] :=
    List.dropWhile_eq_nil_iff.mpr (fun x hx => by have := hall x hx; simp; omega)
  have hA : l.takeWhile
      (fun s => !(decide (s.time < now - POWER_CONSUMPTION_MAX_HISTORY))) = l :=
    List.takeWhile_eq_self_iff.mpr (fun x hx => by have := hall x hx; simp; omega)
  rw [hA, hB]
  simp

/-- C4: a record call either deduplicates (leaving the history unchanged) or
inserts the new snapshot at the head and prunes with cutoff
`observedAt − 3h`; after the insert-and-prune, every entry at or after the
cutoff is kept, at most one entry older than the cutoff is kept, when some
entry is older than the cutoff exactly such an entry — the newest one — is
kept as interpolation anchor, the result is never empty, and when no entry
is older than the cutoff the whole list is kept. -/
theorem C4_prune_invariants (now : Int) (t y : ℚ) (h : List EnergySnapshot)
    (hsort : h.Pairwise (fun a b => b.time ≤ a.time))
    (hle : ∀ s ∈ h, s.time ≤ now) :
    (register_for_mode now t y h = h ∨
      register_for_mode now t y h = prune_history now (⟨now, t, y⟩ :: h)) ∧
    (∀ s ∈ (⟨now, t, y⟩ :: h : List EnergySnapshot),
        now - POWER_CONSUMPTION_MAX_HISTORY ≤ s.time →
        s ∈ prune_history now (⟨now, t, y⟩ :: h)) ∧
    ((prune_history now (⟨now, t, y⟩ :: h)).filter
        (fun s => decide (s.time < now - POWER_CONSUMPTION_MAX_HISTORY))).length ≤ 1 ∧
    ((∃ s ∈ (⟨now, t, y⟩ :: h : List EnergySnapshot),
        s.time < now - POWER_CONSUMPTION_MAX_HISTORY) →
      ∃ s ∈ prune_history now (⟨now, t, y⟩ :: h),
        s.time < now - POWER_CONSUMPTION_MAX_HISTORY ∧
        ∀ s2 ∈ (⟨now, t, y⟩ :: h : List EnergySnapshot),
          s2.time < now - POWER_CONSUMPTION_MAX_HISTORY → s2.time ≤ s.time) ∧
    prune_history now (⟨now, t, y⟩ :: h) ≠ [] ∧
    ((∀ s ∈ (⟨now, t, y⟩ :: h : List EnergySnapshot),
        now - POWER_CONSUMPTION_MAX_HISTORY ≤ s.time) →
      prune_history now (⟨now, t, y⟩ :: h) = ⟨now, t, y⟩ :: h) := by
  have hlsort : (⟨now, t, y⟩ :: h : List EnergySnapshot).Pairwise
      (fun a b => b.time ≤ a.time) :=
    List.pairwise_cons.mpr ⟨fun b hb => hle b hb, hsort⟩
  refine ⟨?_, prune_keeps_fresh now _ hlsort, prune_at_most_one_stale now _,
    prune_anchor now _ hlsort, prune_ne_nil now _ (by simp),
    prune_all_fresh now _⟩
  cases h with
  | nil => exact Or.inr rfl
  | cons old rest =>
    by_cases hd : t = old.today ∧ y = old.yesterday
    · exact Or.inl (by simp [register_for_mode, hd])
    · exact Or.inr (by simp [register_for_mode, hd])

/-- Witness for C4 at a history with one stale entry beyond the horizon. -/
theorem C4_prune_invariants_witness :
    ((⟨-60, 2, 1⟩ :: [⟨-200, 1, 1⟩, ⟨-250, 1, 0⟩] : List EnergySnapshot).Pairwise
      (fun a b => b.time ≤ a.time)) ∧
    ((register_for_mode 0 3 2 [⟨-60, 2, 1⟩, ⟨-200, 1, 1⟩, ⟨-250, 1, 0⟩]
        = [⟨-60, 2, 1⟩, ⟨-200, 1, 1⟩, ⟨-250, 1, 0⟩] ∨
      register_for_mode 0 3 2 [⟨-60, 2, 1⟩, ⟨-200, 1, 1⟩, ⟨-250, 1, 0⟩]
        = prune_history 0
            (⟨0, 3, 2⟩ :: [⟨-60, 2, 1⟩, ⟨-200, 1, 1⟩, ⟨-250, 1, 0⟩])) ∧
    (∀ s ∈ (⟨0, 3, 2⟩ :: [⟨-60, 2, 1⟩, ⟨-200, 1, 1⟩, ⟨-250, 1, 0⟩] :
          List EnergySnapshot),
        0 - POWER_CONSUMPTION_MAX_HISTORY ≤ s.time →
        s ∈ prune_history 0
          (⟨0, 3, 2⟩ :: [⟨-60, 2, 1⟩, ⟨-200, 1, 1⟩, ⟨-250, 1, 0⟩])) ∧
    ((prune_history 0
        (⟨0, 3, 2⟩ :: [⟨-60, 2, 1⟩, ⟨-200, 1, 1⟩, ⟨-250, 1, 0⟩])).filter
        (fun s => decide (s.time < 0 - POWER_CONSUMPTION_MAX_HISTORY))).length ≤ 1 ∧
    ((∃ s ∈ (⟨0, 3, 2⟩ :: [⟨-60, 2, 1⟩, ⟨-200, 1, 1⟩, ⟨-250, 1, 0⟩] :
          List EnergySnapshot),
        s.time < 0 - POWER_CONSUMPTION_MAX_HISTORY) →
      ∃ s ∈ prune_history 0
          (⟨0, 3, 2⟩ :: [⟨-60, 2, 1⟩, ⟨-200, 1, 1⟩, ⟨-250, 1, 0⟩]),
        s.time < 0 - POWER_CONSUMPTION_MAX_HISTORY ∧
        ∀ s2 ∈ (⟨0, 3, 2⟩ :: [⟨-60, 2, 1⟩, ⟨-200, 1, 1⟩, ⟨-250, 1, 0⟩] :
            List EnergySnapshot),
          s2.time < 0 - POWER_CONSUMPTION_MAX_HISTORY → s2.time ≤ s.time) ∧
    prune_history 0 (⟨0, 3, 2⟩ :: [⟨-60, 2, 1⟩, ⟨-200, 1, 1⟩, ⟨-250, 1, 0⟩]) ≠ [] ∧
    ((∀ s ∈ (⟨0, 3, 2⟩ :: [⟨-60, 2, 1⟩, ⟨-200, 1, 1⟩, ⟨-250, 1, 0⟩] :
          List EnergySnapshot),
        0 - POWER_CONSUMPTION_MAX_HISTORY ≤ s.time) →
      prune_history 0 (⟨0, 3, 2⟩ :: [⟨-60, 2, 1⟩, ⟨-200, 1, 1⟩, ⟨-250, 1, 0⟩])
        = ⟨0, 3, 2⟩ :: [⟨-60, 2, 1⟩, ⟨-200, 1, 1⟩, ⟨-250, 1, 0⟩])) := by
  refine ⟨by decide, C4_prune_invariants 0 3 2 _ (by decide) (by decide)⟩

/-- Recording into an empty history always yields the singleton history. -/
lemma register_for_mode_nil (now : Int) (t y : ℚ) :
    register_for_mode now t y [] = [⟨now, t, y⟩] := by
  show prune_history now [⟨now, t, y⟩] = [⟨now, t, y⟩]
  rw [prune_history_eq]
  cases hp : decide ((⟨now, t, y⟩ : EnergySnapshot).time
      < now - POWER_CONSUMPTION_MAX_HISTORY) with
  | true =>
    exfalso
    have := of_decide_eq_true hp
    simp only [POWER_CONSUMPTION_MAX_HISTORY] at this
    omega
  | false => simp [List.takeWhile_cons, List.dropWhile_cons, hp]

/-- Recording counters identical to the newest entry is a no-op. -/
lemma register_for_mode_same (now t0 : Int) (t y : ℚ) (rest : List EnergySnapshot) :
    register_for_mode now t y (⟨t0, t, y⟩ :: rest) = ⟨t0, t, y⟩ :: rest := by
  simp [register_for_mode]

/-- C5: any N ≥ 1 refreshes that all extract the same `(today, yesterday)`
pair leave the category's history with exactly one entry: the first refresh
inserts, every later one deduplicates against the unchanged newest entry. -/
theorem C5_dedup_single_entry (ts : List Int) (t y : ℚ) (hts : ts ≠ []) :
    (ts.foldl (fun h now => register_for_mode now t y h) []).length = 1 := by
  cases ts with
  | nil => exact absurd rfl hts
  | cons t0 rest =>
    rw [List.foldl_cons, register_for_mode_nil]
    have : ∀ (l : List Int) (tm : Int),
        l.foldl (fun h now => register_for_mode now t y h) [⟨tm, t, y⟩]
          = [⟨tm, t, y⟩] := by
      intro l
      induction l with
      | nil => intro tm; rfl
      | cons a l2 ih =>
        intro tm
        rw [List.foldl_cons, register_for_mode_same]
        exact ih tm
    rw [this rest t0]
    rfl

/-- Witness for C5: three refreshes with identical counters. -/
theorem C5_dedup_single_entry_witness :
    ([0, 10, 20] : List Int) ≠ [] ∧
    (([0, 10, 20] : List Int).foldl
      (fun h now => register_for_mode now 1 2 h) []).length = 1 :=
  ⟨by decide, C5_dedup_single_entry [0, 10, 20] 1 2 (by decide)⟩

/-- Everything in a recorded history is the new snapshot or an old entry. -/
lemma register_for_mode_mem (now : Int) (t y : ℚ) (h : List EnergySnapshot) :
    ∀ s ∈ register_for_mode now t y h, s = ⟨now, t, y⟩ ∨ s ∈ h := by
  intro s hs
  cases h with
  | nil =>
    rw [register_for_mode_nil] at hs
    exact Or.inl (List.mem_singleton.mp hs)
  | cons old rest =>
    by_cases hd : t = old.today ∧ y = old.yesterday
    · simp only [register_for_mode, if_pos hd] at hs
      exact Or.inr hs
    · simp only [register_for_mode, if_neg hd] at hs
      have hsub : s ∈ (⟨now, t, y⟩ :: old :: rest : List EnergySnapshot) :=
        List.take_subset _ _ hs
      rcases List.mem_cons.mp hsub with hmem | hmem
      · exact Or.inl hmem
      · exact Or.inr hmem

/-- One record call preserves the newest-first ordering. -/
lemma register_for_mode_sorted (now : Int) (t y : ℚ) (h : List EnergySnapshot)
    (hsort : h.Pairwise (fun a b => b.time ≤ a.time))
    (hle : ∀ s ∈ h, s.time ≤ now) :
    (register_for_mode now t y h).Pairwise (fun a b => b.time ≤ a.time) := by
  have hlsort : (⟨now, t, y⟩ :: h : List EnergySnapshot).Pairwise
      (fun a b => b.time ≤ a.time) :=
    List.pairwise_cons.mpr ⟨fun b hb => hle b hb, hsort⟩
  cases h with
  | nil => rw [register_for_mode_nil]; exact List.pairwise_singleton _ _
  | cons old rest =>
    by_cases hd : t = old.today ∧ y = old.yesterday
    · simpa only [register_for_mode, if_pos hd] using hsort
    · simp only [register_for_mode, if_neg hd]
      exact hlsort.sublist (List.take_sublist _ _)

/-- C6: one record call preserves the non-increasing-timestamp ordering
(given observation times not in the past of the stored entries), and any
sequence of record calls at non-decreasing observation times, starting from
the empty history, produces a history ordered newest-first. -/
theorem C6_newest_first_ordering :
    (∀ (now : Int) (t y : ℚ) (h : List EnergySnapshot),
      h.Pairwise (fun a b => b.time ≤ a.time) →
      (∀ s ∈ h, s.time ≤ now) →
      (register_for_mode now t y h).Pairwise (fun a b => b.time ≤ a.time)) ∧
    (∀ ops : List (Int × ℚ × ℚ),
      ops.Pairwise (fun o1 o2 => o1.1 ≤ o2.1) →
      (ops.foldl (fun h o => register_for_mode o.1 o.2.1 o.2.2 h) []).Pairwise
        (fun a b => b.time ≤ a.time)) := by
  constructor
  · exact register_for_mode_sorted
  · have aux : ∀ (ops : List (Int × ℚ × ℚ)) (h : List EnergySnapshot),
        ops.Pairwise (fun o1 o2 => o1.1 ≤ o2.1) →
        h.Pairwise (fun a b => b.time ≤ a.time) →
        (∀ s ∈ h, ∀ o ∈ ops, s.time ≤ o.1) →
        (ops.foldl (fun h o => register_for_mode o.1 o.2.1 o.2.2 h) h).Pairwise
          (fun a b => b.time ≤ a.time) := by
      intro ops
      induction ops with
      | nil => intro h _ hsort _; exact hsort
      | cons o rest ih =>
        intro h hops hsort hbound
        rw [List.foldl_cons]
        rcases List.pairwise_cons.mp hops with ⟨hofirst, hrest⟩
        refine ih _ hrest
          (register_for_mode_sorted o.1 o.2.1 o.2.2 h hsort
            (fun s hs => hbound s hs o (List.mem_cons_self _ _))) ?_
        intro s hs o2 ho2
        rcases register_for_mode_mem o.1 o.2.1 o.2.2 h s hs with hnew | hold
        · rw [hnew]; exact hofirst o2 ho2
        · exact hbound s hold o2 (List.mem_cons_of_mem _ ho2)
    intro ops hops
    exact aux ops [] hops (List.Pairwise.nil) (by simp)

/-- Witness for C6 at a concrete two-refresh sequence. -/
theorem C6_newest_first_ordering_witness :
    (register_for_mode 10 5 1 [⟨0, 1, 1⟩]).Pairwise (fun a b => b.time ≤ a.time) ∧
    (([(0, 1, 1), (10, 5, 1)] : List (Int × ℚ × ℚ)).foldl
      (fun h o => register_for_mode o.1 o.2.1 o.2.2 h) []).Pairwise
      (fun a b => b.time ≤ a.time) :=
  ⟨C6_newest_first_ordering.1 10 5 1 [⟨0, 1, 1⟩] (by decide) (by decide),
   C6_newest_first_ordering.2 [(0, 1, 1), (10, 5, 1)] (by decide)⟩

/-- C3 (code evaluation at the failing inputs): with energy consumption
supported but the `datas` field missing, the record operation raises
`AttributeError` (`None.split('/')` in `_energy_consumption`, which catches
only `ValueError`); with `datas` present but non-numeric, the caught
`ValueError` makes `_energy_consumption` return `None`, which
`today_energy_consumption` immediately subscripts, raising `TypeError`.  In
both cases the exception crosses the Recorder boundary instead of the
category being skipped. -/
theorem C3_extraction_failure_raises :
    register_energy_consumption_history 0
        [("previous_year", "1"), ("this_year", "0")] []
      = .error .attributeError ∧
    register_energy_consumption_history 0
        [("previous_year", "1"), ("this_year", "0"), ("datas", "abc")] []
      = .error .typeError :=
  ⟨rfl, rfl⟩

/-- C7 counterexample: for `datas = "40/50"` the extractor yields the
divided value `50/1000 = 1/20` (and `40/1000 = 1/25`), and the snapshot the
Recorder stores holds exactly these divided kWh-scale values — `1/20`, not
the raw integer counter `50`. -/
theorem C7_counterexample_divided_not_raw :
    today_energy_consumption [("datas", "40/50")] "total" = .ok (1 / 20 : ℚ) ∧
    yesterday_energy_consumption [("datas", "40/50")] "total" = .ok (1 / 25 : ℚ) ∧
    register_for_mode 0 (1 / 20 : ℚ) (1 / 25 : ℚ) []
      = [⟨0, 1 / 20, 1 / 25⟩] ∧
    (1 / 20 : ℚ) ≠ 50 := by
  have h : energy_consumption [("datas", "40/50")] "datas" = .ok (some [40, 50]) := rfl
  refine ⟨?_, ?_, register_for_mode_nil 0 (1 / 20) (1 / 25), by norm_num⟩
  · norm_num [today_energy_consumption, h]
  · norm_num [yesterday_energy_consumption, h]

/-- C7 (amended): for the total category, `today` and `yesterday` are the
last and second-to-last elements of the slash-delimited `datas` field, each
divided by 1000; the history snapshot recorded by the Recorder stores the
same divided kWh-scale values the extractor returns, not the raw integer
counters. -/
theorem C7_amended_divided_storage (values : Values) (l : List Int) (now : Int)
    (hl : energy_consumption values "datas" = .ok (some l))
    (hlen : 2 ≤ l.length) :
    today_energy_consumption values "total"
      = .ok (((l.getLast?.getD 0 : Int) : ℚ) / 1000) ∧
    yesterday_energy_consumption values "total"
      = .ok (((l.dropLast.getLast?.getD 0 : Int) : ℚ) / 1000) ∧
    register_for_mode now (((l.getLast?.getD 0 : Int) : ℚ) / 1000)
        (((l.dropLast.getLast?.getD 0 : Int) : ℚ) / 1000) []
      = [⟨now, ((l.getLast?.getD 0 : Int) : ℚ) / 1000,
          ((l.dropLast.getLast?.getD 0 : Int) : ℚ) / 1000⟩] := by
  have hne : l ≠ [] := by
    intro hcontra; rw [hcontra] at hlen; simp at hlen
  have hdne : l.dropLast ≠ [] := by
    intro hcontra
    have := congrArg List.length hcontra
    rw [List.length_dropLast] at this
    simp at this
    omega
  cases hx : l.getLast? with
  | none => exact absurd (List.getLast?_eq_none_iff.mp hx) hne
  | some x =>
    cases hy : l.dropLast.getLast? with
    | none => exact absurd (List.getLast?_eq_none_iff.mp hy) hdne
    | some z =>
      refine ⟨?_, ?_, register_for_mode_nil now _ _⟩
      · simp only [today_energy_consumption, if_pos rfl, hl, hx, Option.getD_some,
          if_true]
      · simp only [yesterday_energy_consumption, if_pos rfl, hl, hy, Option.getD_some,
          if_true]

/-- Witness for C7 (amended) at `datas = "40/50"`. -/
theorem C7_amended_divided_storage_witness :
    energy_consumption [("datas", "40/50")] "datas" = .ok (some [40, 50]) ∧
    2 ≤ ([40, 50] : List Int).length ∧
    today_energy_consumption [("datas", "40/50")] "total"
      = .ok (((([40, 50] : List Int).getLast?.getD 0 : Int) : ℚ) / 1000) ∧
    yesterday_energy_consumption [("datas", "40/50")] "total"
      = .ok (((([40, 50] : List Int).dropLast.getLast?.getD 0 : Int) : ℚ) / 1000) ∧
    register_for_mode 7 (((([40, 50] : List Int).getLast?.getD 0 : Int) : ℚ) / 1000)
        (((([40, 50] : List Int).dropLast.getLast?.getD 0 : Int) : ℚ) / 1000) []
      = [⟨7, ((([40, 50] : List Int).getLast?.getD 0 : Int) : ℚ) / 1000,
          ((([40, 50] : List Int).dropLast.getLast?.getD 0 : Int) : ℚ) / 1000⟩] := by
  refine ⟨rfl, by decide, ?_⟩
  have := C7_amended_divided_storage [("datas", "40/50")] [40, 50] 7 rfl (by decide)
  exact ⟨this.1, this.2.1, this.2.2⟩

lemma dict_get_append_absent (m : HistMap) (k : String)
    (v : List EnergySnapshot) (hk : dict_get m k = none) :
    dict_get (m ++ [(k, v)]) k = some v := by
  induction m with
  | nil => simp [dict_get]
  | cons p rest ih =>
    rcases p with ⟨k2, v2⟩
    by_cases hkk : k2 = k
    · rw [dict_get, if_pos hkk] at hk; exact absurd hk (by simp)
    · rw [dict_get, if_neg hkk] at hk
      rw [List.cons_append, dict_get, if_neg hkk]
      exact ih hk

lemma dict_get_of_mem_keys (m : HistMap) (k : String)
    (hk : k ∈ m.map Prod.fst) : ∃ v, dict_get m k = some v := by
  induction m with
  | nil => simp at hk
  | cons p rest ih =>
    rcases p with ⟨k2, v2⟩
    by_cases hkk : k2 = k
    · exact ⟨v2, by rw [dict_get, if_pos hkk]⟩
    · simp only [List.map_cons] at hk
      rcases List.mem_cons.mp hk with hk1 | hk1
      · exact absurd hk1.symm hkk
      · rw [dict_get, if_neg hkk]; exact ih hk1

/-- C8 counterexample: the state `{'total': []}` — reachable by one
`delta_energy_consumption` query on a freshly constructed appliance, before
any snapshot is recorded — has an empty `total` history, yet
`current_total_power_consumption` returns `0` (`Some 0`), not the
unavailable value `None`: its emptiness guard counts the keys of the whole
map, not the snapshots of the queried mode. -/
theorem C8_counterexample_zero_on_empty_history :
    (delta_energy_consumption 0 30 false [] "total").2 = [("total", [])] ∧
    dict_get [("total", [])] "total" = some [] ∧
    (current_total_power_consumption 0 [("total", [])]).1 = some 0 := by
  refine ⟨rfl, rfl, ?_⟩
  norm_num [current_total_power_consumption, delta_energy_consumption,
    defaultdict_get, dict_get, delta_energy_loop]

/-- C8 (amended): `current_total_power_consumption` returns `None` exactly
when the history map has no keys at all; whenever the map is non-empty —
even if only with empty per-mode lists created by earlier queries — it
returns `delta(total, 30min)` multiplied by 2 (the 1h/30min extrapolation
factor), which is `0`, not `None`, when the queried history is empty. -/
theorem C8_amended_power_guard (now : Int) (m : HistMap) :
    (m = [] → (current_total_power_consumption now m).1 = none) ∧
    (m ≠ [] → (current_total_power_consumption now m).1
      = some ((delta_energy_consumption now 30 false m "total").1 * 2)) := by
  constructor
  · intro hm
    rw [hm]
    rfl
  · intro hm
    rw [current_total_power_consumption,
      if_neg (by simpa using List.length_eq_zero.not.mpr hm)]

/-- Witness for C8 (amended) on the empty and a one-key map. -/
theorem C8_amended_power_guard_witness :
    (current_total_power_consumption 0 []).1 = none ∧
    (current_total_power_consumption 0 [("total", [])]).1
      = some ((delta_energy_consumption 0 30 false [("total", [])] "total").1 * 2) :=
  ⟨(C8_amended_power_guard 0 []).1 rfl,
   (C8_amended_power_guard 0 [("total", [])]).2 (by simp)⟩

/-- C9 (amended): `delta_energy_consumption` is deterministic and touches no
stored snapshot list — repeating a call on the state the first call left
behind returns the identical result and identical state, and when the
queried mode is already a key of the map the call leaves the map entirely
unchanged — but when the mode key is absent the call does observably change
the history map, inserting an empty list under the key (the `defaultdict`
access). -/
theorem C9_amended_delta_pure (now dt : Int) (eb : Bool) (m : HistMap)
    (mode : String) :
    delta_energy_consumption now dt eb
        (delta_energy_consumption now dt eb m mode).2 mode
      = delta_energy_consumption now dt eb m mode ∧
    (mode ∈ m.map Prod.fst → (delta_energy_consumption now dt eb m mode).2 = m) ∧
    (dict_get m mode = none →
      (delta_energy_consumption now dt eb m mode).2 = m ++ [(mode, [])]) := by
  refine ⟨?_, ?_, ?_⟩
  · cases hg : dict_get m mode with
    | some v => simp [delta_energy_consumption, defaultdict_get, hg]
    | none =>
      simp only [delta_energy_consumption, defaultdict_get, hg,
        dict_get_append_absent m mode [] hg]
  · intro hmem
    rcases dict_get_of_mem_keys m mode hmem with ⟨v, hv⟩
    simp [delta_energy_consumption, defaultdict_get, hv]
  · intro hg
    simp [delta_energy_consumption, defaultdict_get, hg]

/-- C9 counterexample: a call with the queried mode absent from the map
does not leave the history state unchanged — on a freshly constructed
appliance (empty map) it inserts the key `'total'` with an empty list. -/
theorem C9_counterexample_state_change :
    (delta_energy_consumption 0 30 false [] "total").2 ≠ ([] : HistMap) := by
  intro hcontra
  have : ([("total", [])] : HistMap) = [] := hcontra
  simp at this

/-- Witness for C9 (amended): repeat-call identity on one map, exact
no-change on a map already holding the key, key insertion on the empty map. -/
theorem C9_amended_delta_pure_witness :
    delta_energy_consumption 0 30 false
        (delta_energy_consumption 0 30 false [] "total").2 "total"
      = delta_energy_consumption 0 30 false [] "total" ∧
    (delta_energy_consumption 0 30 false [("total", [⟨0, 1, 1⟩])] "total").2
      = [("total", [⟨0, 1, 1⟩])] ∧
    (delta_energy_consumption 0 30 false [] "total").2 = [] ++ [("total", [])] :=
  ⟨(C9_amended_delta_pure 0 30 false [] "total").1,
   (C9_amended_delta_pure 0 30 false [("total", [⟨0, 1, 1⟩])] "total").2.1
     (by simp),
   (C9_amended_delta_pure 0 30 false [] "total").2.2 rfl⟩

/-- C10: querying `delta_energy_consumption` for a mode key not present in
the history map inserts an empty list under that key (defaultdict access):
the map grows by that key, its key count becomes non-zero, and the derived
accessors' emptiness guard — which measures the whole map, not the queried
mode's list — subsequently treats the history as non-empty
(`current_total_power_consumption` no longer returns `None`). -/
theorem C10_defaultdict_side_effect (now dt : Int) (eb : Bool) (m : HistMap)
    (mode : String) (habsent : dict_get m mode = none) :
    (delta_energy_consumption now dt eb m mode).2 = m ++ [(mode, [])] ∧
    dict_get (delta_energy_consumption now dt eb m mode).2 mode = some [] ∧
    0 < (delta_energy_consumption now dt eb m mode).2.length ∧
    (current_total_power_consumption now
      (delta_energy_consumption now dt eb m mode).2).1 ≠ none := by
  have hm2 : (delta_energy_consumption now dt eb m mode).2 = m ++ [(mode, [])] := by
    simp [delta_energy_consumption, defaultdict_get, habsent]
  have hlen : 0 < (delta_energy_consumption now dt eb m mode).2.length := by
    rw [hm2]; simp
  refine ⟨hm2, by rw [hm2]; exact dict_get_append_absent m mode [] habsent, hlen, ?_⟩
  rw [current_total_power_consumption, if_neg (by omega)]
  simp

/-- Witness for C10 on the empty map and the `'cool'` mode. -/
theorem C10_defaultdict_side_effect_witness :
    (delta_energy_consumption 0 65 true [] "cool").2 = [] ++ [("cool", [])] ∧
    dict_get (delta_energy_consumption 0 65 true [] "cool").2 "cool" = some [] ∧
    0 < (delta_energy_consumption 0 65 true [] "cool").2.length ∧
    (current_total_power_consumption 0
      (delta_energy_consumption 0 65 true [] "cool").2).1 ≠ none :=
  C10_defaultdict_side_effect 0 65 true [] "cool" rfl
